import Mathlib

/-!
Verification development for the DNS resolution core of OpenSMTPD
(src/smtpd/dns.c). The C code is shallowly embedded: byte buffers are
`List Nat` (each entry a byte value), machine integers are `Nat`/`Int`,
and the asynchronous resolver is an explicit parameter. C strings are
modelled as the list of bytes before the terminating NUL, hence
interior zeros do not occur in string inputs.
-/

namespace Dns

/-- Modelled from the spec: `MAXDNAME` comes from `arpa/nameser.h`, which is
not part of this repository's sources. The spec states the constant is 255
bytes, the maximum on-wire length of a domain name. -/
def MAXDNAME : Nat := 255

/-- Modelled from the spec: `HOST_NAME_MAX` comes from `limits.h` (not in
src); the spec gives the hostname buffer capacity as 255 bytes + NUL, so the
`char name[HOST_NAME_MAX+1]` buffer holds at most 255 name bytes. -/
def HOST_NAME_MAX : Nat := 255

/-- Modelled from the spec: `SMTPD_MAXDOMAINPARTSIZE` comes from `smtpd.h`
(not in src); the spec gives the address-literal buffer capacity as 255. -/
def SMTPD_MAXDOMAINPARTSIZE : Nat := 255

/-- Size of the fixed DNS header (`HFIXEDSZ` in `arpa/nameser.h`, not in
src); the spec describes a fixed 12-byte header. -/
def HFIXEDSZ : Nat := 12

/-- DNS record type codes used by the `switch` in `unpack_rr`. The numeric
values are the standard DNS wire values from `arpa/nameser.h` (not in src). -/
def T_A : Nat := 1
def T_NS : Nat := 2
def T_CNAME : Nat := 5
def T_SOA : Nat := 6
def T_PTR : Nat := 12
def T_MX : Nat := 15
def T_AAAA : Nat := 28
def C_IN : Nat := 1

/-- Resolver error codes from `netdb.h` / `arpa/nameser.h` (not in src),
standard values. -/
def NO_RECOVERY : Nat := 3
def NO_DATA : Nat := 4
def NXDOMAIN : Nat := 3

/-- ASCII lower-casing of a single byte, the effect of `tolower` used by
`strcasecmp`/`strncasecmp` on ASCII input. -/
def lowerByte (b : Nat) : Nat := if 65 ≤ b ∧ b ≤ 90 then b + 32 else b

/-- Result of `dname_expand`: success carries the C return value (total
on-wire length of the expanded name), the final `*newoffset` value and the
bytes written to `dst`; `err` is the C `-1` return; `oob` marks the point
where the C code would read a byte outside the input buffer (the `for`
condition `n = data[offset]` is evaluated without re-checking
`offset < len`), after which the C behaviour is undefined; `fuelOut` is a
model artefact of the fuel-based recursion and is unreachable for the fuel
chosen in `dname_expand` (see `dnameLoop_no_fuelOut`). -/
inductive DnameRes where
  | ok (wire : Nat) (newoffset : Nat) (name : List Nat)
  | err
  | oob
  | fuelOut
  deriving DecidableEq, Repr

/-- Loop state of `dname_expand`: the local variables `offset`, `start`,
`end`, `res`, the remaining `dst` capacity `max` and the bytes written so
far. -/
structure DState where
  offset : Nat
  start : Nat
  end_ : Nat
  res : Nat
  max : Nat
  acc : List Nat
  deriving DecidableEq, Repr

/-- The `for (; (n = data[offset]); )` loop of `dname_expand` in dns.c.
`data.length` plays the role of the `len` parameter (the callers pass the
buffer together with its exact length). One fuel unit is consumed per
iteration. -/
def dnameLoop (data : List Nat) : Nat → DState → DnameRes
  | 0, _ => DnameRes.fuelOut
  | fuel + 1, st =>
    match data[st.offset]? with
    | none => DnameRes.oob
    | some n =>
      if n = 0 then
        -- loop exit: if (end < offset + 1) end = offset + 1; write final NUL
        DnameRes.ok (st.res + 1) (max st.end_ (st.offset + 1))
          (if st.max ≠ 0 then st.acc ++ [0] else st.acc)
      else if n &&& 0xc0 = 0xc0 then
        -- compression pointer; for byte values n &&& 0x3f equals C's n & ~0xc0
        if st.offset + 2 > data.length then DnameRes.err
        else
          match data[st.offset + 1]? with
          | none => DnameRes.oob
          | some b2 =>
            if st.start ≤ 256 * (n &&& 0x3f) + b2 then DnameRes.err
            else
              dnameLoop data fuel
                { st with offset := 256 * (n &&& 0x3f) + b2,
                          start := 256 * (n &&& 0x3f) + b2,
                          end_ := max st.end_ (st.offset + 2) }
      else
        -- plain label of n bytes: copy length byte plus label, bounded by max
        if st.offset + n + 1 > data.length then DnameRes.err
        else
          dnameLoop data fuel
            { offset := st.offset + n + 1, start := st.start,
              end_ := max st.end_ (st.offset + n + 1), res := st.res + (n + 1),
              max := st.max - min st.max (n + 1),
              acc := st.acc ++ (data.drop st.offset).take (min st.max (n + 1)) }

/-- The function `dname_expand(data, len, offset, &newoffset, dst, max)` of
dns.c, with `len = data.length` and `dst` always supplied. The fuel bound
strictly exceeds the loop's termination measure
`start * (len + 1) + (len - offset)`. -/
def dname_expand (data : List Nat) (offset max : Nat) : DnameRes :=
  if data.length ≤ offset then DnameRes.err
  else
    dnameLoop data (offset * (data.length + 1) + (data.length - offset) + 1)
      ⟨offset, offset, offset, 0, max, []⟩

/-- The loop of `print_dname` in dns.c; `left` is the remaining capacity and
`acc` the bytes written so far. One fuel unit per iteration; the name shrinks
by at least one byte per iteration so `dname.length + 1` fuel suffices. -/
def printLoop : Nat → List Nat → Nat → List Nat → List Nat
  | 0, _, _, acc => acc
  | fuel + 1, dname, left, acc =>
    let n := dname.headD 0
    if n = 0 ∨ left = 0 then acc
    else
      let count := if n < left - 1 then n else left - 1
      let acc1 := acc ++ (dname.drop 1).take count
      let left1 := left - count
      if left1 ≠ 0 then printLoop fuel (dname.drop (n + 1)) (left1 - 1) (acc1 ++ [46])
      else printLoop fuel (dname.drop (n + 1)) left1 acc1

/-- The function `print_dname(_dname, buf, max)` of dns.c: converts a wire
form name to dotted text (with trailing dot). The result is the content of
the produced C string. The callers pass `max = 512 ≥ 2`, so the root name
case `strlcpy(buf, ".", max)` yields ".". -/
def print_dname (dname : List Nat) (max : Nat) : List Nat :=
  if dname.headD 0 = 0 then [46]
  else printLoop (dname.length + 1) dname (max - 1) []

/-- The `buf[strlen(buf) - 1] = '\0'` idiom of `dns_dispatch_mx` and
`dns_dispatch_mx_preference`: drop the last character of a C string. -/
def chopLast (l : List Nat) : List Nat := l.dropLast

/-- The `struct unpack` cursor of dns.c: buffer (with `len = data.length`),
current offset and the sticky error string. The extra flag `ub` records that
the modelled C code performed an out-of-bounds access (see `DnameRes.oob`),
after which the C behaviour is undefined and the model stops. -/
structure Unpack where
  data : List Nat
  offset : Nat
  err : Option String
  ub : Bool
  deriving DecidableEq, Repr

/-- A cursor on which no further decoding is meaningful: the sticky error is
set, or undefined behaviour was reached. -/
def Unpack.bad (u : Unpack) : Bool := u.err.isSome || u.ub

/-- The function `unpack_init` of dns.c. -/
def unpack_init (buf : List Nat) : Unpack := ⟨buf, 0, none, false⟩

/-- The function `unpack_data` of dns.c, returning the bytes read instead of
writing through a pointer. Note `p->len - p->offset < len` is a `size_t`
comparison; the invariant `offset ≤ len` holds on every non-`ub` path, and
under it Nat subtraction agrees with the C computation. -/
def unpack_data (u : Unpack) (len : Nat) : Option (List Nat) × Unpack :=
  if u.bad then (none, u)
  else if u.data.length - u.offset < len then (none, { u with err := some "too short" })
  else (some ((u.data.drop u.offset).take len), { u with offset := u.offset + len })

/-- Big-endian 16-bit read from a byte list, the composition of the
`memmove` in `unpack_data` with `ntohs`. -/
def u16At (l : List Nat) (i : Nat) : Nat := l.getD i 0 * 256 + l.getD (i + 1) 0

/-- Big-endian 32-bit read, the composition of `memmove` with `ntohl`. -/
def u32At (l : List Nat) (i : Nat) : Nat :=
  ((l.getD i 0 * 256 + l.getD (i + 1) 0) * 256 + l.getD (i + 2) 0) * 256 + l.getD (i + 3) 0

/-- The function `unpack_u16` of dns.c. -/
def unpack_u16 (u : Unpack) : Option Nat × Unpack :=
  let r := unpack_data u 2
  match r.1 with
  | some l => (some (u16At l 0), r.2)
  | none => (none, r.2)

/-- The function `unpack_u32` of dns.c. -/
def unpack_u32 (u : Unpack) : Option Nat × Unpack :=
  let r := unpack_data u 4
  match r.1 with
  | some l => (some (u32At l 0), r.2)
  | none => (none, r.2)

/-- The function `unpack_inaddr` of dns.c: a 4-byte read. -/
def unpack_inaddr (u : Unpack) : Option (List Nat) × Unpack := unpack_data u 4

/-- The function `unpack_in6addr` of dns.c: a 16-byte read. -/
def unpack_in6addr (u : Unpack) : Option (List Nat) × Unpack := unpack_data u 16

/-- The function `unpack_dname` of dns.c. On success `dname_expand` has
already written the new offset through `&p->offset`, so the offset advances
even when the "domain name too long" error is then raised. -/
def unpack_dname (u : Unpack) (max : Nat) : Option (List Nat) × Unpack :=
  if u.bad then (none, u)
  else
    match dname_expand u.data u.offset max with
    | DnameRes.err => (none, { u with err := some "bad domain name" })
    | DnameRes.oob => (none, { u with ub := true })
    | DnameRes.fuelOut => (none, { u with ub := true })
    | DnameRes.ok wire newoff name =>
      if MAXDNAME < wire then
        (none, { u with offset := newoff, err := some "domain name too long" })
      else (some name, { u with offset := newoff })

/-- The `struct dns_header` of dns.c. -/
structure DnsHeader where
  id : Nat
  flags : Nat
  qdcount : Nat
  ancount : Nat
  nscount : Nat
  arcount : Nat
  deriving DecidableEq, Repr

/-- The function `unpack_header` of dns.c: one 12-byte read, then `ntohs` of
each field of the packed struct, i.e. six big-endian 16-bit values. -/
def unpack_header (u : Unpack) : Option DnsHeader × Unpack :=
  let r := unpack_data u HFIXEDSZ
  match r.1 with
  | some l => (some ⟨u16At l 0, u16At l 2, u16At l 4, u16At l 6, u16At l 8, u16At l 10⟩, r.2)
  | none => (none, r.2)

/-- The `struct dns_query` of dns.c. -/
structure DnsQuery where
  q_dname : List Nat
  q_type : Nat
  q_cls : Nat
  deriving DecidableEq, Repr

/-- The function `unpack_query` of dns.c: three unconditional reads folded
into one final check of the sticky error. -/
def unpack_query (u : Unpack) : Option DnsQuery × Unpack :=
  let r1 := unpack_dname u MAXDNAME
  let r2 := unpack_u16 r1.2
  let r3 := unpack_u16 r2.2
  if r3.2.bad then (none, r3.2)
  else (some ⟨r1.1.getD [], r2.1.getD 0, r3.1.getD 0⟩, r3.2)

/-- The tagged body of a decoded resource record (the `rr` union of
`struct dns_rr`). The `other` arm is the view `(rdata, rdlen)` into the
source buffer, modelled as the byte offset of `rdata` plus the length. -/
inductive RRBody where
  | cname (n : List Nat)
  | mx (pref : Nat) (exchange : List Nat)
  | ns (n : List Nat)
  | ptrName (n : List Nat)
  | soa (mname rname : List Nat) (serial refresh retryV expire minimum : Nat)
  | inA (addr : List Nat)
  | inAAAA (addr6 : List Nat)
  | other (off : Nat) (rdlen : Nat)
  deriving DecidableEq, Repr

/-- The fixed (pre-body) part of `unpack_rr`: name, type, class, TTL and
rdlength. -/
structure RRFixed where
  dname : List Nat
  rtype : Nat
  rcls : Nat
  ttl : Nat
  rdlen : Nat
  deriving DecidableEq, Repr

/-- The `struct dns_rr` of dns.c. -/
structure DnsRR where
  rr_dname : List Nat
  rr_type : Nat
  rr_cls : Nat
  rr_ttl : Nat
  body : RRBody
  deriving DecidableEq, Repr

/-- The five fixed reads at the head of `unpack_rr` followed by the
`if (p->err) return -1` check. -/
def unpack_rr_fixed (u : Unpack) : Option RRFixed × Unpack :=
  let r1 := unpack_dname u MAXDNAME
  let r2 := unpack_u16 r1.2
  let r3 := unpack_u16 r2.2
  let r4 := unpack_u32 r3.2
  let r5 := unpack_u16 r4.2
  if r5.2.bad then (none, r5.2)
  else (some ⟨r1.1.getD [], r2.1.getD 0, r3.1.getD 0, r4.1.getD 0, r5.1.getD 0⟩, r5.2)

/-- The `switch (rr->rr_type)` body decode of `unpack_rr`. A `T_A`/`T_AAAA`
record whose class is not `C_IN` falls through (`goto other`) to the default
arm, which captures the view into the buffer and advances the cursor by
`rdlen`. -/
def unpack_rr_body (u : Unpack) (t cls rdlen : Nat) : RRBody × Unpack :=
  if t = T_CNAME then
    let r := unpack_dname u MAXDNAME
    (RRBody.cname (r.1.getD []), r.2)
  else if t = T_MX then
    let r1 := unpack_u16 u
    let r2 := unpack_dname r1.2 MAXDNAME
    (RRBody.mx (r1.1.getD 0) (r2.1.getD []), r2.2)
  else if t = T_NS then
    let r := unpack_dname u MAXDNAME
    (RRBody.ns (r.1.getD []), r.2)
  else if t = T_PTR then
    let r := unpack_dname u MAXDNAME
    (RRBody.ptrName (r.1.getD []), r.2)
  else if t = T_SOA then
    let r1 := unpack_dname u MAXDNAME
    let r2 := unpack_dname r1.2 MAXDNAME
    let r3 := unpack_u32 r2.2
    let r4 := unpack_u32 r3.2
    let r5 := unpack_u32 r4.2
    let r6 := unpack_u32 r5.2
    let r7 := unpack_u32 r6.2
    (RRBody.soa (r1.1.getD []) (r2.1.getD []) (r3.1.getD 0) (r4.1.getD 0)
      (r5.1.getD 0) (r6.1.getD 0) (r7.1.getD 0), r7.2)
  else if t = T_A ∧ cls = C_IN then
    let r := unpack_inaddr u
    (RRBody.inA (r.1.getD []), r.2)
  else if t = T_AAAA ∧ cls = C_IN then
    let r := unpack_in6addr u
    (RRBody.inAAAA (r.1.getD []), r.2)
  else
    (RRBody.other u.offset rdlen, { u with offset := u.offset + rdlen })

/-- The function `unpack_rr` of dns.c: fixed part, the advertised-`rdlen`
bounds check, the typed body decode, and the final check that the cursor
advanced by exactly `rdlen` ("bad dlen"). -/
def unpack_rr (u : Unpack) : Option DnsRR × Unpack :=
  match unpack_rr_fixed u with
  | (none, u') => (none, u')
  | (some f, u1) =>
    if u1.data.length - u1.offset < f.rdlen then (none, { u1 with err := some "too short" })
    else
      let rb := unpack_rr_body u1 f.rtype f.rcls f.rdlen
      if rb.2.bad then (none, rb.2)
      else if rb.2.offset - u1.offset = f.rdlen then
        (some ⟨f.dname, f.rtype, f.rcls, f.ttl, rb.1⟩, rb.2)
      else (none, { rb.2 with err := some "bad dlen" })

/-- Outbound status codes (`DNS_OK`, `DNS_ENOTFOUND`, `DNS_ENONAME`,
`DNS_EINVAL`, `DNS_RETRY` of smtpd.h; values live outside src, so the closed
enumeration is modelled symbolically). -/
inductive Status where
  | ok
  | notfound
  | noname
  | invalid
  | retryS
  deriving DecidableEq, Repr

/-- Inbound request kinds, the values of `s->type`
(`IMSG_MTA_DNS_HOST`, `IMSG_MTA_DNS_PTR`, `IMSG_SMTP_DNS_PTR`,
`IMSG_MTA_DNS_MX`, `IMSG_MTA_DNS_MX_PREFERENCE`). -/
inductive ReqType where
  | host
  | ptrMta
  | ptrSmtp
  | mx
  | mxPref
  deriving DecidableEq, Repr

/-- Messages emitted to the caller via the `m_create`/`m_close` composer:
`IMSG_MTA_DNS_HOST` address messages, the `IMSG_MTA_DNS_HOST_END`
terminator, the PTR reply echoing the inbound tag, and the
`IMSG_MTA_DNS_MX_PREFERENCE` reply. Socket addresses are opaque byte
lists. -/
inductive Msg where
  | host (reqid : Nat) (sa : List Nat) (pref : Int)
  | hostEnd (reqid : Nat) (status : Status)
  | ptrReply (tag : ReqType) (reqid : Nat) (status : Status) (name : Option (List Nat))
  | mxPref (reqid : Nat) (status : Status) (pref : Option Nat)
  deriving DecidableEq, Repr

/-- The `struct dns_session` of dns.c (the `mproc` reply channel is implicit
in the emitted message list). -/
structure Session where
  reqid : Nat
  rtype : ReqType
  name : List Nat
  mxfound : Nat
  error : Nat
  refcount : Int
  deriving DecidableEq, Repr

/-- A host (A+AAAA) sub-lookup: the `struct dns_lookup` preference together
with the hostname submitted to `getaddrinfo_async`. -/
structure Lookup where
  host : List Nat
  pref : Int
  deriving DecidableEq, Repr

/-- Completion of `getaddrinfo_async`: the `ai_addr` of each entry of the
`ar_addrinfo` chain, plus `ar_gai_errno`. -/
structure GaiResult where
  addrs : List (List Nat)
  gai_errno : Nat
  deriving DecidableEq, Repr

/-- Completion of `getnameinfo_async`: `ar_gai_errno` plus the name written
into `s->name` on success. -/
structure GniResult where
  gai_errno : Nat
  name : List Nat
  deriving DecidableEq, Repr

/-- Completion of `res_query_async`: `ar_h_errno`, `ar_rcode` and the raw
DNS payload `ar_data`/`ar_datalen`. -/
structure AsrResult where
  h_errno : Nat
  rcode : Nat
  data : List Nat
  deriving DecidableEq, Repr

/-- The `strncasecmp("[IPv6:", host, 6) == 0` test of dns.c; the target
lower-cases to the bytes of "[ipv6:". -/
def isIpv6Literal (host : List Nat) : Bool :=
  (host.take 6).map lowerByte = [91, 105, 112, 118, 54, 58]

/-- The function `domainname_is_addr` of dns.c. The numeric-host resolution
performed by `getaddrinfo` with `AI_NUMERICHOST` is the oracle `gaiNum`
(arguments: the address text and the `i6` flag selecting `AF_INET6`), which
yields `res->ai_addr` bytes and `res->ai_addrlen`, or nothing when
`getaddrinfo` fails or returns no result. Returns the C result together with
the final contents of the caller's `(sa, *sl)` pair. -/
def domainname_is_addr (s : List Nat) (gaiNum : List Nat → Bool → Option (List Nat × Nat))
    (sa : List Nat) (sl : Nat) : Nat × List Nat × Nat :=
  if s.headD 0 ≠ 91 then (0, sa, sl)
  else
    let i6 := isIpv6Literal s
    let s1 := s.drop (if i6 then 6 else 1)
    -- l = strlcpy(buf, s, sizeof(buf)) returns strlen(s)
    if SMTPD_MAXDOMAINPARTSIZE ≤ s1.length ∨ s1.length = 0 then (0, sa, sl)
    else if s1.getLast? ≠ some 93 then (0, sa, sl)
    else
      match gaiNum s1.dropLast i6 with
      | none => (0, sa, sl)
      | some (addr, addrlen) =>
        let sl2 := min sl addrlen
        (1, addr.take sl2 ++ sa.drop sl2, addrlen)

/-- The bracket-literal normalisation at the head of `dns_lookup_host`:
strip a leading `[IPv6:` or `[`, copy into `hostcopy[HOST_NAME_MAX+1]`, and
cut at the first `]`. -/
def hostNormalize (host : List Nat) : List Nat :=
  if host.headD 0 = 91 then
    ((if isIpv6Literal host then host.drop 6 else host.drop 1).take HOST_NAME_MAX).takeWhile
      (fun b => b ≠ 93)
  else host

/-- Pending asynchronous operations, i.e. the `event_asr_run` registrations:
a host lookup (`getaddrinfo_async`), a reverse lookup
(`getnameinfo_async`), or an MX query (`res_query_async`) for the MX or
MX-preference dispatcher. -/
inductive Submitted where
  | gai (lk : Lookup)
  | gni (sa : List Nat)
  | mxQuery (domain : List Nat)
  | mxPrefQuery (domain : List Nat)
  deriving DecidableEq, Repr

/-- The function `dns_lookup_host` of dns.c: allocate the `dns_lookup`,
bump the session refcount, normalise a bracketed literal and submit the
dual-family `getaddrinfo_async` query. -/
def dns_lookup_host (s : Session) (host : List Nat) (pref : Int) : Session × Submitted :=
  ({ s with refcount := s.refcount + 1 }, Submitted.gai ⟨hostNormalize host, pref⟩)

/-- The function `dns_dispatch_host` of dns.c: emit one address message per
`addrinfo` entry, record a non-zero `gai` error, decrement the refcount, and
on the last completion emit the terminator and free the session (`none`). -/
def dns_dispatch_host (ar : GaiResult) (pref : Int) (s : Session) :
    List Msg × Option Session :=
  let msgs := ar.addrs.map fun a => Msg.host s.reqid a pref
  let s1 : Session :=
    { s with mxfound := s.mxfound + ar.addrs.length,
             error := if ar.gai_errno ≠ 0 then ar.gai_errno else s.error,
             refcount := s.refcount - 1 }
  if s1.refcount ≠ 0 then (msgs, some s1)
  else
    (msgs ++ [Msg.hostEnd s.reqid (if s1.mxfound ≠ 0 then Status.ok else Status.notfound)],
      none)

/-- The function `dns_dispatch_ptr` of dns.c: a single reply echoing the
inbound tag, then the session is freed. -/
def dns_dispatch_ptr (ar : GniResult) (s : Session) : List Msg :=
  [Msg.ptrReply s.rtype s.reqid (if ar.gai_errno ≠ 0 then Status.notfound else Status.ok)
    (if ar.gai_errno = 0 then some ar.name else none)]

/-- The MX-record walk of `dns_dispatch_mx`: up to `ancount` records, break
on the first decode error, skip non-MX records, and for each MX record spawn
a host lookup on the printed exchange (trailing dot chopped) carrying the
record's preference. -/
def mxWalk (u : Unpack) : Nat → List Lookup
  | 0 => []
  | n + 1 =>
    match unpack_rr u with
    | (none, _) => []
    | (some rr, u') =>
      if rr.rr_type = T_MX then
        match rr.body with
        | RRBody.mx p e => ⟨chopLast (print_dname e 512), (p : Int)⟩ :: mxWalk u' n
        | _ => mxWalk u' n
      else mxWalk u' n

/-- Result of `dns_dispatch_mx`: the messages emitted during the callback,
the host sub-lookups spawned (in order), whether `free(s)` ran, and the
session as it stands when the callback returns (`none` when freed). -/
structure MxDispatch where
  msgs : List Msg
  spawned : List Lookup
  freed : Bool
  session : Option Session
  deriving DecidableEq, Repr

/-- The function `dns_dispatch_mx` of dns.c. A resolver error other than
`NO_DATA` terminates immediately. Otherwise the payload is decoded; if the
header or the query fails to decode the callback returns with no message,
no spawned lookup, and without freeing the session. Otherwise each decoded
MX record spawns a host lookup (incrementing the refcount), with a fallback
lookup on `s->name` with preference 0 when none was found. -/
def dns_dispatch_mx (ar : AsrResult) (s : Session) : MxDispatch :=
  if ar.h_errno ≠ 0 ∧ ar.h_errno ≠ NO_DATA then
    { msgs := [Msg.hostEnd s.reqid
        (if ar.rcode = NXDOMAIN then Status.noname
         else if ar.h_errno = NO_RECOVERY then Status.invalid
         else Status.retryS)],
      spawned := [], freed := true, session := none }
  else
    let u0 := unpack_init ar.data
    match unpack_header u0 with
    | (none, _) => { msgs := [], spawned := [], freed := false, session := some s }
    | (some h, u1) =>
      match unpack_query u1 with
      | (none, _) => { msgs := [], spawned := [], freed := false, session := some s }
      | (some _, u2) =>
        let ls := mxWalk u2 h.ancount
        let ls' := if ls.isEmpty then [⟨s.name, (0 : Int)⟩] else ls
        { msgs := [], spawned := ls', freed := false,
          session := some { s with refcount := s.refcount + ls'.length } }

/-- The matching walk of `dns_dispatch_mx_preference`: find the first MX
record whose printed exchange (trailing dot chopped) equals `target`
case-insensitively, and return its preference. -/
def mxPrefWalk (target : List Nat) (u : Unpack) : Nat → Option Nat
  | 0 => none
  | n + 1 =>
    match unpack_rr u with
    | (none, _) => none
    | (some rr, u') =>
      if rr.rr_type = T_MX then
        match rr.body with
        | RRBody.mx p e =>
          if target.map lowerByte = (chopLast (print_dname e 512)).map lowerByte then some p
          else mxPrefWalk target u' n
        | _ => mxPrefWalk target u' n
      else mxPrefWalk target u' n

/-- The function `dns_dispatch_mx_preference` of dns.c: map resolver errors,
otherwise search the answer section for the stored candidate name, starting
from `DNS_ENOTFOUND`; a single reply is emitted and the session freed. -/
def dns_dispatch_mx_preference (ar : AsrResult) (s : Session) : List Msg :=
  let ep : Status × Option Nat :=
    if ar.h_errno ≠ 0 then
      (if ar.rcode = NXDOMAIN then Status.noname
       else if ar.h_errno = NO_RECOVERY ∨ ar.h_errno = NO_DATA then Status.invalid
       else Status.retryS, none)
    else
      match unpack_header (unpack_init ar.data) with
      | (none, _) => (Status.notfound, none)
      | (some h, u1) =>
        match unpack_query u1 with
        | (none, _) => (Status.notfound, none)
        | (some _, u2) =>
          match mxPrefWalk s.name u2 h.ancount with
          | some p => (Status.ok, some p)
          | none => (Status.notfound, none)
  [Msg.mxPref s.reqid ep.1 (if ep.1 = Status.ok then ep.2 else none)]

/-- Inbound requests, after `m_get_id`/`m_get_string`/`m_get_sockaddr`
decoding. -/
inductive Request where
  | host (reqid : Nat) (hostname : List Nat)
  | ptrQ (tag : ReqType) (reqid : Nat) (sa : List Nat)
  | mx (reqid : Nat) (domain : List Nat)
  | mxPreference (reqid : Nat) (domain mxname : List Nat)
  deriving DecidableEq, Repr

/-- Outcome of `dns_imsg`: either the request completed synchronously (the
session was freed before returning) or it is pending on the listed
asynchronous submissions with the session alive. -/
inductive ImsgOut where
  | done (msgs : List Msg)
  | pending (s : Session) (subs : List Submitted)
  deriving DecidableEq, Repr

/-- The function `dns_imsg` of dns.c. `gaiNum` is the numeric-host oracle
used by `domainname_is_addr`; `submitOk` models whether `res_query_async`
returns non-NULL (the `getaddrinfo_async`/`getnameinfo_async` submissions in
the HOST and PTR branches are not checked by the C code and are modelled as
always registering). The `sockaddr_storage` stack buffer is modelled as a
zeroed 128-byte buffer. -/
def dns_imsg (gaiNum : List Nat → Bool → Option (List Nat × Nat)) (submitOk : Bool)
    (req : Request) : ImsgOut :=
  match req with
  | Request.host reqid hostname =>
    let s : Session := ⟨reqid, ReqType.host, [], 0, 0, 0⟩
    let r := dns_lookup_host s hostname (-1)
    ImsgOut.pending r.1 [r.2]
  | Request.ptrQ tag reqid sa =>
    ImsgOut.pending ⟨reqid, tag, [], 0, 0, 0⟩ [Submitted.gni sa]
  | Request.mx reqid domain =>
    let s : Session := ⟨reqid, ReqType.mx, domain.take HOST_NAME_MAX, 0, 0, 0⟩
    let r := domainname_is_addr domain gaiNum (List.replicate 128 0) 128
    if r.1 = 1 then
      ImsgOut.done [Msg.host reqid r.2.1 (-1), Msg.hostEnd reqid Status.ok]
    else if submitOk then ImsgOut.pending s [Submitted.mxQuery s.name]
    else ImsgOut.done [Msg.hostEnd reqid Status.invalid]
  | Request.mxPreference reqid domain mxname =>
    let s : Session := ⟨reqid, ReqType.mxPref, mxname.take HOST_NAME_MAX, 0, 0, 0⟩
    if submitOk then ImsgOut.pending s [Submitted.mxPrefQuery domain]
    else ImsgOut.done [Msg.mxPref reqid Status.notfound none]

/-! Specification-side helpers: an all-or-nothing decode of the answer
section, used to state the fan-out claim against the walk performed by
`dns_dispatch_mx`. -/

/-- Decode exactly `n` resource records; `none` when any record fails. -/
def unpack_answers (u : Unpack) : Nat → Option (List DnsRR)
  | 0 => some []
  | n + 1 =>
    match unpack_rr u with
    | (none, _) => none
    | (some rr, u') => (unpack_answers u' n).map (rr :: ·)

/-- The lookup spawned for a single record by the walk of
`dns_dispatch_mx`, if any: MX records map to a lookup on the printed
exchange carrying the record's preference, all others to nothing. -/
def mxSel (rr : DnsRR) : Option Lookup :=
  if rr.rr_type = T_MX then
    match rr.body with
    | RRBody.mx p e => some ⟨chopLast (print_dname e 512), (p : Int)⟩
    | _ => none
  else none

/-- The preference stored in an MX record body (0 for other bodies; only
applied to MX records). -/
def rrPref (rr : DnsRR) : Int :=
  match rr.body with
  | RRBody.mx p _ => (p : Int)
  | _ => 0

/-- Full decode of an MX response payload: header, query, then the whole
answer section. -/
def decodeMxPayload (payload : List Nat) : Option (List DnsRR) :=
  match unpack_header (unpack_init payload) with
  | (none, _) => none
  | (some h, u1) =>
    match unpack_query u1 with
    | (none, _) => none
    | (some _, u2) => unpack_answers u2 h.ancount

/-! Claim theorems. -/

/-- A string that does not start with `[` is never an address literal, and
the caller's buffers are untouched. -/
theorem domainname_is_addr_not_bracket (s : List Nat)
    (g : List Nat → Bool → Option (List Nat × Nat)) (sa : List Nat) (sl : Nat)
    (hd : s.headD 0 ≠ 91) : domainname_is_addr s g sa sl = (0, sa, sl) := by
  unfold domainname_is_addr
  rw [if_pos hd]

/-- C1: the claim states that every request emits exactly one terminal
message and frees its session, for every sequence of resolver completions.
The code violates this: when the MX completion carries no resolver error but
a payload whose header (or query) fails to decode, `dns_dispatch_mx` returns
right away — no `DNS_HOST_END` is emitted, no sub-lookup is spawned, and the
session (refcount 0, never referenced again) is not freed. Evaluated here at
an empty payload. -/
theorem c1_mx_decode_failure_drops_terminator :
    dns_dispatch_mx ⟨0, 0, []⟩ ⟨1, ReqType.mx, [120], 0, 0, 0⟩ =
      { msgs := [], spawned := [], freed := false,
        session := some ⟨1, ReqType.mx, [120], 0, 0, 0⟩ } := by
  rfl

/-- C3: the claim states the decoder never reads a byte outside the input
buffer. The code violates it: the loop condition of `dname_expand` reads
`data[offset]` without re-checking the bound, so a name whose labels end
exactly at the end of the buffer (here the two bytes `01 61` with no
terminating zero) makes the C code read `data[len]`, one byte past the
buffer. The model marks that read as `oob`/`ub`. -/
theorem c3_dname_expand_reads_past_buffer :
    dname_expand [1, 97] 0 255 = DnameRes.oob ∧
    (unpack_dname (unpack_init [1, 97]) MAXDNAME).2.ub = true := by
  exact ⟨rfl, rfl⟩

/-- C2 counterexample: the claim says that for every request kind a failed
submit yields a single reply with status Invalid. For `MxPreferenceLookup`
the code replies with `DNS_ENOTFOUND` (NotFound), not `DNS_EINVAL`
(Invalid), as evaluated here on a concrete request. -/
theorem c2_submit_fail_mx_preference_not_invalid :
    dns_imsg (fun _ _ => none) false (Request.mxPreference 7 [100] [109]) =
      ImsgOut.done [Msg.mxPref 7 Status.notfound none] ∧
    Status.notfound ≠ Status.invalid := by
  exact ⟨rfl, by decide⟩

/-- C2 amended: when the resolver query cannot be submitted, `MxByDomain`
(on a non-literal domain) goes directly to Done with a single
`DNS_HOST_END` carrying Invalid, while `MxPreferenceLookup` goes directly to
Done with its single reply carrying NotFound; `HostByName` and
`PtrByAddress` perform no submit-failure check at all and simply register
their callback. -/
theorem c2_submit_fail_statuses (g : List Nat → Bool → Option (List Nat × Nat))
    (reqid : Nat) (d m hn sa : List Nat) (tag : ReqType) (hd : d.headD 0 ≠ 91) :
    dns_imsg g false (Request.mx reqid d) =
      ImsgOut.done [Msg.hostEnd reqid Status.invalid] ∧
    dns_imsg g false (Request.mxPreference reqid d m) =
      ImsgOut.done [Msg.mxPref reqid Status.notfound none] ∧
    dns_imsg g false (Request.host reqid hn) =
      ImsgOut.pending ⟨reqid, ReqType.host, [], 0, 0, 1⟩
        [Submitted.gai ⟨hostNormalize hn, -1⟩] ∧
    dns_imsg g false (Request.ptrQ tag reqid sa) =
      ImsgOut.pending ⟨reqid, tag, [], 0, 0, 0⟩ [Submitted.gni sa] := by
  refine ⟨?_, rfl, rfl, rfl⟩
  simp only [dns_imsg]
  rw [domainname_is_addr_not_bracket d g (List.replicate 128 0) 128 hd]
  norm_num

/-- C2 witness: the amended statement applied to a concrete non-literal
domain. -/
theorem c2_submit_fail_statuses_witness :
    dns_imsg (fun _ _ => none) false (Request.mx 3 [101]) =
      ImsgOut.done [Msg.hostEnd 3 Status.invalid] :=
  (c2_submit_fail_statuses (fun _ _ => none) 3 [101] [109] [104] [9, 9]
    ReqType.ptrMta (by decide)).1

/-- C7: on the completion that drops the refcount of a HOST or MX session to
zero, `dns_dispatch_host` emits the terminator and frees the session, and
the terminator status is OK exactly when the total number of address
messages emitted (`s->mxfound` plus the addresses of this completion) is
positive — independently of the session's recorded `error` and of this
completion's `gai` error, over which the statement is universally
quantified. -/
theorem c7_terminator_status_iff_found (ar : GaiResult) (pref : Int) (s : Session)
    (h : s.refcount = 1) :
    (dns_dispatch_host ar pref s).2 = none ∧
    ∃ st, (dns_dispatch_host ar pref s).1 =
        (ar.addrs.map fun a => Msg.host s.reqid a pref) ++ [Msg.hostEnd s.reqid st] ∧
      (st = Status.ok ↔ 0 < s.mxfound + ar.addrs.length) ∧
      (st = Status.notfound ↔ s.mxfound + ar.addrs.length = 0) := by
  have key : dns_dispatch_host ar pref s =
      ((ar.addrs.map fun a => Msg.host s.reqid a pref) ++
        [Msg.hostEnd s.reqid
          (if s.mxfound + ar.addrs.length ≠ 0 then Status.ok else Status.notfound)],
       none) := by
    unfold dns_dispatch_host
    simp [h]
  refine ⟨by rw [key],
    if s.mxfound + ar.addrs.length ≠ 0 then Status.ok else Status.notfound,
    by rw [key], ?_, ?_⟩ <;>
    ( by_cases hm : s.mxfound + ar.addrs.length = 0 <;> ( simp [hm] ; try omega ) )

/-- C7 witness: a session with one outstanding sub-lookup, a completion with
two addresses and a non-zero aggregate error already recorded: the
terminator is OK. -/
theorem c7_terminator_status_iff_found_witness :
    ((1 : Int) = 1) ∧
    (dns_dispatch_host ⟨[[1, 2], [3, 4]], 5⟩ 10 ⟨2, ReqType.mx, [], 0, 7, 1⟩).2 = none := by
  exact ⟨rfl, (c7_terminator_status_iff_found ⟨[[1, 2], [3, 4]], 5⟩ 10
    ⟨2, ReqType.mx, [], 0, 7, 1⟩ rfl).1⟩

/-- Every exit of `domainname_is_addr` either reports "not a literal" with
the caller's buffers untouched, or reports success. -/
theorem domainname_is_addr_zero_or_one (s : List Nat)
    (g : List Nat → Bool → Option (List Nat × Nat)) (sa : List Nat) (sl : Nat) :
    domainname_is_addr s g sa sl = (0, sa, sl) ∨
    (domainname_is_addr s g sa sl).1 = 1 := by
  unfold domainname_is_addr
  dsimp only
  repeat' split
  any_goals ( left ; rfl )
  all_goals ( right ; rfl )

/-- C9: whenever `domainname_is_addr` reports that the string is not an
address literal (result 0), the caller-supplied socket-address buffer and
its length are returned unchanged; they are overwritten only on success. -/
theorem c9_literal_recognizer_frame (s : List Nat)
    (g : List Nat → Bool → Option (List Nat × Nat)) (sa : List Nat) (sl : Nat)
    (h : (domainname_is_addr s g sa sl).1 = 0) :
    (domainname_is_addr s g sa sl).2.1 = sa ∧ (domainname_is_addr s g sa sl).2.2 = sl := by
  rcases domainname_is_addr_zero_or_one s g sa sl with hc | hc
  · rw [hc]
    exact ⟨rfl, rfl⟩
  · rw [h] at hc
    cases hc

/-- C9 witness: a string with no opening bracket, evaluated concretely. -/
theorem c9_literal_recognizer_frame_witness :
    (domainname_is_addr [97, 98] (fun _ _ => some ([9, 9], 2)) [5, 5, 5] 3).1 = 0 ∧
    (domainname_is_addr [97, 98] (fun _ _ => some ([9, 9], 2)) [5, 5, 5] 3).2.1 = [5, 5, 5] := by
  exact ⟨rfl, (c9_literal_recognizer_frame [97, 98] (fun _ _ => some ([9, 9], 2))
    [5, 5, 5] 3 rfl).1⟩

/-- C4: during compressed-name expansion a length byte with both high bits
set (mask 0xC0) denotes a 14-bit pointer (value below 2^14 for byte input).
From any loop state, expansion proceeds past the pointer exactly when the
target offset is strictly below the start offset of the segment currently
being expanded (the loop's `start` variable, which is the start offset of
the name and is moved to each followed pointer target); a target at or above
`start` makes `dname_expand` fail, which `unpack_dname` records as the
sticky error "bad domain name". -/
theorem c4_pointer_must_target_earlier_offset :
    (∀ (data : List Nat) (fuel : Nat) (st : DState) (n b2 : Nat),
      data[st.offset]? = some n → n &&& 0xc0 = 0xc0 →
      data[st.offset + 1]? = some b2 → b2 < 256 → st.offset + 2 ≤ data.length →
      256 * (n &&& 0x3f) + b2 < 16384 ∧
      (st.start ≤ 256 * (n &&& 0x3f) + b2 →
        dnameLoop data (fuel + 1) st = DnameRes.err) ∧
      (256 * (n &&& 0x3f) + b2 < st.start →
        dnameLoop data (fuel + 1) st =
          dnameLoop data fuel
            { st with offset := 256 * (n &&& 0x3f) + b2,
                      start := 256 * (n &&& 0x3f) + b2,
                      end_ := max st.end_ (st.offset + 2) })) ∧
    (∀ (u : Unpack) (mx : Nat), u.bad = false →
      dname_expand u.data u.offset mx = DnameRes.err →
      unpack_dname u mx = (none, { u with err := some "bad domain name" })) := by
  constructor
  · intro data fuel st n b2 hb hmask hb2 hb2lt hlen
    have hn0 : n ≠ 0 := by
      intro h
      subst h
      simp at hmask
    have hand : n &&& 0x3f ≤ 0x3f := Nat.and_le_right
    refine ⟨by omega, ?_, ?_⟩
    · intro hge
      simp only [dnameLoop, hb, hb2]
      rw [if_neg hn0, if_pos hmask, if_neg (show ¬st.offset + 2 > data.length by omega),
        if_pos hge]
    · intro hlt
      simp only [dnameLoop, hb, hb2]
      rw [if_neg hn0, if_pos hmask, if_neg (show ¬st.offset + 2 > data.length by omega),
        if_neg (show ¬st.start ≤ 256 * (n &&& 0x3f) + b2 by omega)]
  · intro u mx hbad hexp
    simp [unpack_dname, hbad, hexp]

/-- C4 witness: a pointer at offset 0 targeting offset 0 (its own name's
start) is rejected and surfaces as "bad domain name". -/
theorem c4_pointer_must_target_earlier_offset_witness :
    dnameLoop [192, 0] 3 ⟨0, 0, 0, 0, 255, []⟩ = DnameRes.err ∧
    unpack_dname ⟨[192, 0], 0, none, false⟩ 255 =
      (none, ⟨[192, 0], 0, some "bad domain name", false⟩) := by
  constructor
  · exact (c4_pointer_must_target_earlier_offset.1 [192, 0] 2 ⟨0, 0, 0, 0, 255, []⟩
      192 0 rfl (by decide) rfl (by decide) (by decide)).2.1 (by decide)
  · exact c4_pointer_must_target_earlier_offset.2 ⟨[192, 0], 0, none, false⟩ 255 rfl rfl

/-- C5: on a cursor with no pending error, when the expansion itself
computes a name (no truncation, bad pointer or out-of-bounds read), the
decode fails exactly when the expanded name's total on-wire length exceeds
`MAXDNAME`; the failure is recorded as "domain name too long" (with the
cursor already advanced, since `dname_expand` wrote `*newoffset`), and
otherwise the name is returned with the cursor advanced. `MAXDNAME` is
modelled from the spec as 255. -/
theorem c5_name_length_bound (u : Unpack) (mx wire newoff : Nat) (nm : List Nat)
    (hbad : u.bad = false)
    (hexp : dname_expand u.data u.offset mx = DnameRes.ok wire newoff nm) :
    ((unpack_dname u mx).1 = none ↔ MAXDNAME < wire) ∧
    (MAXDNAME < wire →
      unpack_dname u mx =
        (none, { u with offset := newoff, err := some "domain name too long" })) ∧
    (wire ≤ MAXDNAME → unpack_dname u mx = (some nm, { u with offset := newoff })) := by
  refine ⟨?_, ?_, ?_⟩
  · by_cases hw : MAXDNAME < wire <;> simp [unpack_dname, hbad, hexp, hw]
  · intro hw
    simp [unpack_dname, hbad, hexp, hw]
  · intro hw
    simp [unpack_dname, hbad, hexp, show ¬MAXDNAME < wire by omega]

/-- A name of four maximal labels: its on-wire length is 257 > MAXDNAME. -/
def longName257 : List Nat :=
  (63 :: List.replicate 63 97) ++ (63 :: List.replicate 63 97) ++
  (63 :: List.replicate 63 97) ++ (63 :: List.replicate 63 97) ++ [0]

/-- The bytes `dname_expand` copies out of `longName257` with `max = 255`:
the copy is truncated to the destination capacity. -/
def longName257Out : List Nat :=
  (63 :: List.replicate 63 97) ++ (63 :: List.replicate 63 97) ++
  (63 :: List.replicate 63 97) ++ (63 :: List.replicate 62 97)

set_option maxRecDepth 8000 in
/-- C5 witness: a 257-byte name is rejected as "domain name too long". -/
theorem c5_name_length_bound_witness :
    (unpack_dname ⟨longName257, 0, none, false⟩ MAXDNAME).2.err =
      some "domain name too long" ∧ MAXDNAME < 257 := by
  have h := (c5_name_length_bound ⟨longName257, 0, none, false⟩ MAXDNAME 257 257
    longName257Out rfl (by decide)).2.1 (by decide)
  rw [h]
  exact ⟨rfl, by decide⟩

/-- C6: for every resource record whose fixed part decodes, whose advertised
`rdlen` passes the bounds check, and whose body decode completes with no
sticky error, `unpack_rr` succeeds exactly when the cursor advanced from the
saved pre-body position by exactly the `rdlen` read from the wire; on a
mismatch it fails with the sticky error "bad dlen", and on success it
returns the record with the body it decoded. -/
theorem c6_rdlen_exact_consumption (u : Unpack) (f : RRFixed) (u1 : Unpack)
    (body : RRBody) (u2 : Unpack)
    (hf : unpack_rr_fixed u = (some f, u1))
    (hbound : ¬u1.data.length - u1.offset < f.rdlen)
    (hb : unpack_rr_body u1 f.rtype f.rcls f.rdlen = (body, u2))
    (hgood : u2.bad = false) :
    ((unpack_rr u).1.isSome ↔ u2.offset - u1.offset = f.rdlen) ∧
    (u2.offset - u1.offset ≠ f.rdlen →
      unpack_rr u = (none, { u2 with err := some "bad dlen" })) ∧
    (u2.offset - u1.offset = f.rdlen →
      unpack_rr u = (some ⟨f.dname, f.rtype, f.rcls, f.ttl, body⟩, u2)) := by
  unfold unpack_rr
  simp only [hf]
  rw [if_neg hbound]
  simp only [hb, hgood]
  by_cases hd : u2.offset - u1.offset = f.rdlen <;> simp [hd]

/-- A record announcing `rdlen = 5` over a 4-byte A body. -/
def rrBadDlen : List Nat := [0, 0, 1, 0, 1, 0, 0, 0, 0, 0, 5, 1, 2, 3, 4, 9]

/-- C6 witness: the record of `rrBadDlen` consumes 4 body bytes against an
advertised `rdlen` of 5 and fails with "bad dlen". -/
theorem c6_rdlen_exact_consumption_witness :
    unpack_rr (unpack_init rrBadDlen) =
      (none, ⟨rrBadDlen, 15, some "bad dlen", false⟩) := by
  exact (c6_rdlen_exact_consumption (unpack_init rrBadDlen) ⟨[0], 1, 1, 0, 5⟩
    ⟨rrBadDlen, 11, none, false⟩ (RRBody.inA [1, 2, 3, 4]) ⟨rrBadDlen, 15, none, false⟩
    (by decide) (by decide) (by decide) rfl).2.1 (by decide)

/-! Preservation lemmas: every decode step leaves the buffer unchanged and
keeps the cursor within it. -/

/-- `unpack_data` preserves the buffer and keeps the offset in bounds. -/
theorem unpack_data_pres (u : Unpack) (k : Nat) :
    (unpack_data u k).2.data = u.data ∧
    (u.offset ≤ u.data.length → (unpack_data u k).2.offset ≤ u.data.length) := by
  unfold unpack_data
  split
  · exact ⟨rfl, fun h => h⟩
  · split
    · exact ⟨rfl, fun h => h⟩
    · refine ⟨rfl, fun h => ?_⟩
      dsimp only
      omega

/-- The cursor returned by `unpack_u16` is the one produced by its
`unpack_data` read. -/
theorem unpack_u16_snd (u : Unpack) : (unpack_u16 u).2 = (unpack_data u 2).2 := by
  unfold unpack_u16
  cases h : (unpack_data u 2).1 <;> simp [h]

/-- The cursor returned by `unpack_u32` is the one produced by its
`unpack_data` read. -/
theorem unpack_u32_snd (u : Unpack) : (unpack_u32 u).2 = (unpack_data u 4).2 := by
  unfold unpack_u32
  cases h : (unpack_data u 4).1 <;> simp [h]

/-- On success the `dname_expand` loop's reported new offset stays within
the buffer: every contribution to `end` is bounds-checked. -/
theorem dnameLoop_ok_end_le (data : List Nat) :
    ∀ (fuel : Nat) (st : DState) (wire e : Nat) (nm : List Nat),
      dnameLoop data fuel st = DnameRes.ok wire e nm →
      st.end_ ≤ data.length → st.start ≤ data.length → e ≤ data.length := by
  intro fuel
  induction fuel with
  | zero =>
    intro st wire e nm h
    simp [dnameLoop] at h
  | succ f ih =>
    intro st wire e nm h hend hstart
    cases hb : data[st.offset]? with
    | none => simp [dnameLoop, hb] at h
    | some n =>
      have hlt : st.offset < data.length := (List.getElem?_eq_some.mp hb).1
      simp only [dnameLoop, hb] at h
      by_cases hn : n = 0
      · rw [if_pos hn] at h
        obtain ⟨-, he, -⟩ := DnameRes.ok.inj h
        omega
      · rw [if_neg hn] at h
        by_cases hm : n &&& 0xc0 = 0xc0
        · rw [if_pos hm] at h
          by_cases ho : st.offset + 2 > data.length
          · rw [if_pos ho] at h
            cases h
          · rw [if_neg ho] at h
            cases hb2 : data[st.offset + 1]? with
            | none =>
              rw [hb2] at h
              cases h
            | some b2 =>
              rw [hb2] at h
              dsimp only at h
              by_cases hge : st.start ≤ 256 * (n &&& 0x3f) + b2
              · rw [if_pos hge] at h
                cases h
              · rw [if_neg hge] at h
                refine ih _ _ _ _ h ?_ ?_ <;> dsimp only <;> omega
        · rw [if_neg hm] at h
          by_cases ho : st.offset + n + 1 > data.length
          · rw [if_pos ho] at h
            cases h
          · rw [if_neg ho] at h
            refine ih _ _ _ _ h ?_ ?_ <;> dsimp only <;> omega

/-- The loop of `dname_expand` terminates: with fuel exceeding the measure
`start * (len + 1) + (len - offset)` it never runs out. Each pointer step
strictly decreases `start`; each label step keeps `start` and strictly
increases `offset` within the buffer. -/
theorem dnameLoop_no_fuelOut (data : List Nat) :
    ∀ (fuel : Nat) (st : DState),
      st.start * (data.length + 1) + (data.length - st.offset) < fuel →
      dnameLoop data fuel st ≠ DnameRes.fuelOut := by
  intro fuel
  induction fuel with
  | zero =>
    intro st h
    omega
  | succ f ih =>
    intro st h
    cases hb : data[st.offset]? with
    | none => simp [dnameLoop, hb]
    | some n =>
      have hlt : st.offset < data.length := (List.getElem?_eq_some.mp hb).1
      simp only [dnameLoop, hb]
      by_cases hn : n = 0
      · rw [if_pos hn]
        simp
      · rw [if_neg hn]
        by_cases hm : n &&& 0xc0 = 0xc0
        · rw [if_pos hm]
          by_cases ho : st.offset + 2 > data.length
          · rw [if_pos ho]
            simp
          · rw [if_neg ho]
            cases hb2 : data[st.offset + 1]? with
            | none => simp
            | some b2 =>
              dsimp only
              by_cases hge : st.start ≤ 256 * (n &&& 0x3f) + b2
              · rw [if_pos hge]
                simp
              · rw [if_neg hge]
                apply ih
                dsimp only
                have h1 : (256 * (n &&& 0x3f) + b2) + 1 ≤ st.start := by omega
                have h2 : ((256 * (n &&& 0x3f) + b2) + 1) * (data.length + 1) ≤
                    st.start * (data.length + 1) := Nat.mul_le_mul_right _ h1
                have h3 : (256 * (n &&& 0x3f) + b2) * (data.length + 1) +
                    (data.length - (256 * (n &&& 0x3f) + b2)) <
                    ((256 * (n &&& 0x3f) + b2) + 1) * (data.length + 1) := by
                  have hs : ((256 * (n &&& 0x3f) + b2) + 1) * (data.length + 1) =
                      (256 * (n &&& 0x3f) + b2) * (data.length + 1) + (data.length + 1) := by
                    ring
                  rw [hs]
                  exact Nat.add_lt_add_left (by omega) _
                have h4 : (256 * (n &&& 0x3f) + b2) * (data.length + 1) +
                    (data.length - (256 * (n &&& 0x3f) + b2)) <
                    st.start * (data.length + 1) + (data.length - st.offset) :=
                  Nat.lt_of_lt_of_le h3 (Nat.le_trans h2 (Nat.le_add_right _ _))
                exact Nat.lt_of_lt_of_le h4 (Nat.lt_succ_iff.mp h)
        · rw [if_neg hm]
          by_cases ho : st.offset + n + 1 > data.length
          · rw [if_pos ho]
            simp
          · rw [if_neg ho]
            apply ih
            dsimp only
            have hA : st.start * (data.length + 1) + (data.length - (st.offset + n + 1)) <
                st.start * (data.length + 1) + (data.length - st.offset) :=
              Nat.add_lt_add_left (by omega) _
            exact Nat.lt_of_lt_of_le hA (Nat.lt_succ_iff.mp h)

/-- `dname_expand` never reports the fuel artefact: the chosen fuel strictly
exceeds the loop's termination measure, so the C loop always terminates. -/
theorem dname_expand_no_fuelOut (data : List Nat) (off mx : Nat) :
    dname_expand data off mx ≠ DnameRes.fuelOut := by
  unfold dname_expand
  split
  · simp
  · apply dnameLoop_no_fuelOut
    dsimp only
    exact Nat.lt_succ_self _

/-- On success `dname_expand` reports a new offset within the buffer. -/
theorem dname_expand_ok_le (data : List Nat) (off mx wire e : Nat) (nm : List Nat)
    (h : dname_expand data off mx = DnameRes.ok wire e nm) : e ≤ data.length := by
  unfold dname_expand at h
  split at h
  · cases h
  · refine dnameLoop_ok_end_le data _ _ _ _ _ h ?_ ?_ <;> dsimp only <;> omega

/-- `unpack_dname` preserves the buffer and keeps the offset in bounds. -/
theorem unpack_dname_pres (u : Unpack) (mx : Nat) :
    (unpack_dname u mx).2.data = u.data ∧
    (u.offset ≤ u.data.length → (unpack_dname u mx).2.offset ≤ u.data.length) := by
  unfold unpack_dname
  split
  · exact ⟨rfl, fun h => h⟩
  · cases hE : dname_expand u.data u.offset mx with
    | ok wire e nm =>
      have he := dname_expand_ok_le u.data u.offset mx wire e nm hE
      by_cases hw : MAXDNAME < wire <;> simp [hw] <;> exact fun _ => he
    | err => exact ⟨rfl, fun h => h⟩
    | oob => exact ⟨rfl, fun h => h⟩
    | fuelOut => exact ⟨rfl, fun h => h⟩

/-- The cursor returned by `unpack_rr_fixed` is the cursor after the five
fixed reads, regardless of success. -/
theorem unpack_rr_fixed_snd (u : Unpack) :
    (unpack_rr_fixed u).2 =
      (unpack_u16 (unpack_u32 (unpack_u16 (unpack_u16
        (unpack_dname u MAXDNAME).2).2).2).2).2 := by
  unfold unpack_rr_fixed
  dsimp only
  split <;> rfl

/-- `unpack_rr_fixed` preserves the buffer and keeps the offset in bounds. -/
theorem unpack_rr_fixed_pres (u : Unpack) :
    (unpack_rr_fixed u).2.data = u.data ∧
    (u.offset ≤ u.data.length → (unpack_rr_fixed u).2.offset ≤ u.data.length) := by
  rw [unpack_rr_fixed_snd]
  obtain ⟨d1, o1⟩ := unpack_dname_pres u MAXDNAME
  set u1 := (unpack_dname u MAXDNAME).2
  obtain ⟨d2, o2⟩ := unpack_data_pres u1 2
  rw [← unpack_u16_snd] at d2 o2
  set u2 := (unpack_u16 u1).2
  obtain ⟨d3, o3⟩ := unpack_data_pres u2 2
  rw [← unpack_u16_snd] at d3 o3
  set u3 := (unpack_u16 u2).2
  obtain ⟨d4, o4⟩ := unpack_data_pres u3 4
  rw [← unpack_u32_snd] at d4 o4
  set u4 := (unpack_u32 u3).2
  obtain ⟨d5, o5⟩ := unpack_data_pres u4 2
  rw [← unpack_u16_snd] at d5 o5
  refine ⟨by rw [d5, d4, d3, d2, d1], fun h => ?_⟩
  rw [d4, d3, d2, d1] at o5
  rw [d3, d2, d1] at o4
  rw [d2, d1] at o3
  rw [d1] at o2
  exact o5 (o4 (o3 (o2 (o1 h))))

/-- An `other` body produced by `unpack_rr_body` records the entry offset
and the advertised `rdlen`. -/
theorem unpack_rr_body_other (u : Unpack) (t cls rdlen : Nat) (b : RRBody)
    (u2 : Unpack) (h : unpack_rr_body u t cls rdlen = (b, u2)) :
    ∀ off rdl, b = RRBody.other off rdl → off = u.offset ∧ rdl = rdlen := by
  intro off rdl hb
  unfold unpack_rr_body at h
  repeat' split at h
  all_goals ( try dsimp only at h )
  all_goals injection h with h1 h2
  all_goals subst h1
  all_goals ( cases hb <;> exact ⟨rfl, rfl⟩ )

/-- C10: whenever `unpack_rr` succeeds on an in-bounds cursor and the record
body was captured as the opaque `other` arm, the stored view (offset of
`rdata` plus `rdlen`) lies entirely within the input buffer: the remaining
length was checked against `rdlength` before the body was decoded. -/
theorem c10_other_view_in_bounds (u : Unpack) (rr : DnsRR) (u' : Unpack)
    (hwf : u.offset ≤ u.data.length) (h : unpack_rr u = (some rr, u')) :
    ∀ off rdl, rr.body = RRBody.other off rdl → off + rdl ≤ u.data.length := by
  intro off rdl hb
  unfold unpack_rr at h
  cases hf : unpack_rr_fixed u with
  | mk o uf =>
    cases o with
    | none =>
      rw [hf] at h
      cases h
    | some f =>
      rw [hf] at h
      dsimp only at h
      have hufd : uf.data = u.data := by
        have := (unpack_rr_fixed_pres u).1
        rw [hf] at this
        exact this
      have hufo : uf.offset ≤ u.data.length := by
        have := (unpack_rr_fixed_pres u).2 hwf
        rw [hf] at this
        exact this
      by_cases hbound : uf.data.length - uf.offset < f.rdlen
      · rw [if_pos hbound] at h
        cases h
      · rw [if_neg hbound] at h
        by_cases hbad : (unpack_rr_body uf f.rtype f.rcls f.rdlen).2.bad
        · rw [if_pos hbad] at h
          cases h
        · rw [if_neg hbad] at h
          by_cases hd :
              (unpack_rr_body uf f.rtype f.rcls f.rdlen).2.offset - uf.offset = f.rdlen
          · rw [if_pos hd] at h
            injection h with h1 h2
            have hrr : rr.body = (unpack_rr_body uf f.rtype f.rcls f.rdlen).1 := by
              rw [← Option.some.inj h1]
            obtain ⟨ho, hr⟩ := unpack_rr_body_other uf f.rtype f.rcls f.rdlen
              (unpack_rr_body uf f.rtype f.rcls f.rdlen).1
              (unpack_rr_body uf f.rtype f.rcls f.rdlen).2 rfl off rdl
              (hrr ▸ hb)
            rw [hufd] at hbound
            omega
          · rw [if_neg hd] at h
            cases h

/-- C10 witness: an unknown-type record (type 99) of 3 opaque bytes inside a
7-byte-trailer buffer; the captured view `(11, 3)` ends at byte 14 ≤ 15. -/
theorem c10_other_view_in_bounds_witness :
    unpack_rr (unpack_init [0, 0, 99, 0, 1, 0, 0, 0, 0, 0, 3, 7, 8, 9, 4]) =
      (some ⟨[0], 99, 1, 0, RRBody.other 11 3⟩,
        ⟨[0, 0, 99, 0, 1, 0, 0, 0, 0, 0, 3, 7, 8, 9, 4], 14, none, false⟩) ∧
    11 + 3 ≤ 15 := by
  refine ⟨by decide, ?_⟩
  exact c10_other_view_in_bounds (unpack_init [0, 0, 99, 0, 1, 0, 0, 0, 0, 0, 3, 7, 8, 9, 4])
    ⟨[0], 99, 1, 0, RRBody.other 11 3⟩
    ⟨[0, 0, 99, 0, 1, 0, 0, 0, 0, 0, 3, 7, 8, 9, 4], 14, none, false⟩
    (by decide) (by decide) 11 3 rfl

/-! Lemmas connecting the record walk of `dns_dispatch_mx` with the
all-or-nothing answer-section decode. -/

/-- Inversion of a successful `unpack_rr`: the fixed part decoded, the
bounds check passed, and the record carries the decoded body. -/
theorem unpack_rr_ok_inv (u : Unpack) (rr : DnsRR) (u' : Unpack)
    (h : unpack_rr u = (some rr, u')) :
    ∃ f uf, unpack_rr_fixed u = (some f, uf) ∧
      ¬uf.data.length - uf.offset < f.rdlen ∧
      rr = ⟨f.dname, f.rtype, f.rcls, f.ttl, (unpack_rr_body uf f.rtype f.rcls f.rdlen).1⟩ ∧
      u' = (unpack_rr_body uf f.rtype f.rcls f.rdlen).2 := by
  unfold unpack_rr at h
  cases hf : unpack_rr_fixed u with
  | mk o uf =>
    cases o with
    | none =>
      rw [hf] at h
      cases h
    | some f =>
      rw [hf] at h
      dsimp only at h
      by_cases hbound : uf.data.length - uf.offset < f.rdlen
      · rw [if_pos hbound] at h
        cases h
      · rw [if_neg hbound] at h
        by_cases hbad : (unpack_rr_body uf f.rtype f.rcls f.rdlen).2.bad
        · rw [if_pos hbad] at h
          cases h
        · rw [if_neg hbad] at h
          by_cases hd :
              (unpack_rr_body uf f.rtype f.rcls f.rdlen).2.offset - uf.offset = f.rdlen
          · rw [if_pos hd] at h
            injection h with h1 h2
            exact ⟨f, uf, rfl, hbound, (Option.some.inj h1).symm, h2.symm⟩
          · rw [if_neg hd] at h
            cases h

/-- The body decoded for a record of type `T_MX` is an `mx` body. -/
theorem unpack_rr_body_mx (u : Unpack) (cls rdlen : Nat) :
    ∃ p e, (unpack_rr_body u T_MX cls rdlen).1 = RRBody.mx p e := by
  refine ⟨(unpack_u16 u).1.getD 0, (unpack_dname (unpack_u16 u).2 MAXDNAME).1.getD [], ?_⟩
  unfold unpack_rr_body
  rw [if_neg (by decide), if_pos rfl]

/-- A record successfully decoded with type `T_MX` carries an `mx` body. -/
theorem unpack_rr_mx_body (u : Unpack) (rr : DnsRR) (u' : Unpack)
    (h : unpack_rr u = (some rr, u')) (ht : rr.rr_type = T_MX) :
    ∃ p e, rr.body = RRBody.mx p e := by
  obtain ⟨f, uf, -, -, hrr, -⟩ := unpack_rr_ok_inv u rr u' h
  subst hrr
  dsimp only at ht ⊢
  rw [ht]
  exact unpack_rr_body_mx uf f.rcls f.rdlen

/-- Unfolding equation of `unpack_answers` at zero. -/
theorem unpack_answers_zero (u : Unpack) : unpack_answers u 0 = some [] := rfl

/-- Unfolding equation of `unpack_answers` at a successor. -/
theorem unpack_answers_succ (u : Unpack) (n : Nat) :
    unpack_answers u (n + 1) =
      match unpack_rr u with
      | (none, _) => none
      | (some rr, u') => (unpack_answers u' n).map (rr :: ·) := rfl

/-- Unfolding equation of `mxWalk` at zero. -/
theorem mxWalk_zero (u : Unpack) : mxWalk u 0 = [] := rfl

/-- Unfolding equation of `mxWalk` at a successor. -/
theorem mxWalk_succ (u : Unpack) (n : Nat) :
    mxWalk u (n + 1) =
      match unpack_rr u with
      | (none, _) => []
      | (some rr, u') =>
        if rr.rr_type = T_MX then
          match rr.body with
          | RRBody.mx p e => ⟨chopLast (print_dname e 512), (p : Int)⟩ :: mxWalk u' n
          | _ => mxWalk u' n
        else mxWalk u' n := rfl

/-- Every record of a fully decoded answer section that has type `T_MX`
carries an `mx` body. -/
theorem answers_wf (n : Nat) :
    ∀ (u : Unpack) (rrs : List DnsRR), unpack_answers u n = some rrs →
      ∀ rr ∈ rrs, rr.rr_type = T_MX → ∃ p e, rr.body = RRBody.mx p e := by
  induction n with
  | zero =>
    intro u rrs h rr hm
    rw [unpack_answers_zero] at h
    rw [← Option.some.inj h] at hm
    simp at hm
  | succ m ih =>
    intro u rrs h rr hm ht
    rw [unpack_answers_succ] at h
    cases hr : unpack_rr u with
    | mk o u1 =>
      cases o with
      | none =>
        rw [hr] at h
        cases h
      | some rr0 =>
        rw [hr] at h
        dsimp only at h
        cases ht2 : unpack_answers u1 m with
        | none =>
          rw [ht2] at h
          cases h
        | some tl =>
          rw [ht2] at h
          simp only [Option.map_some', Option.some.injEq] at h
          subst h
          rcases List.mem_cons.mp hm with rfl | hmem
          · exact unpack_rr_mx_body u rr u1 hr ht
          · exact ih u1 tl ht2 rr hmem ht

/-- On a fully decoded answer section, the walk of `dns_dispatch_mx` spawns
exactly the lookups selected by `mxSel` from the decoded records. -/
theorem mxWalk_eq (n : Nat) :
    ∀ (u : Unpack) (rrs : List DnsRR), unpack_answers u n = some rrs →
      mxWalk u n = rrs.filterMap mxSel := by
  induction n with
  | zero =>
    intro u rrs h
    rw [unpack_answers_zero] at h
    rw [← Option.some.inj h]
    rw [mxWalk_zero]
    simp
  | succ m ih =>
    intro u rrs h
    rw [unpack_answers_succ] at h
    rw [mxWalk_succ]
    cases hr : unpack_rr u with
    | mk o u1 =>
      cases o with
      | none =>
        rw [hr] at h
        cases h
      | some rr0 =>
        rw [hr] at h
        dsimp only at h
        cases ht2 : unpack_answers u1 m with
        | none =>
          rw [ht2] at h
          cases h
        | some tl =>
          rw [ht2] at h
          simp only [Option.map_some', Option.some.injEq] at h
          subst h
          simp only [List.filterMap_cons]
          by_cases ht : rr0.rr_type = T_MX
          · rw [if_pos ht]
            cases hb : rr0.body <;> simp [mxSel, ht, hb, ih u1 tl ht2]
          · rw [if_neg ht]
            simp [mxSel, ht, ih u1 tl ht2]

/-- Under the well-formedness of MX bodies, the selected lookups correspond
one-to-one (preserving order and preference) to the records of type
`T_MX`. -/
theorem filterMap_mxSel_spec (rrs : List DnsRR)
    (hwf : ∀ rr ∈ rrs, rr.rr_type = T_MX → ∃ p e, rr.body = RRBody.mx p e) :
    (rrs.filterMap mxSel).map Lookup.pref =
      (rrs.filter (fun rr => rr.rr_type = T_MX)).map rrPref ∧
    (rrs.filterMap mxSel).length =
      (rrs.filter (fun rr => rr.rr_type = T_MX)).length := by
  induction rrs with
  | nil => simp
  | cons rr tl ih =>
    have hwftl : ∀ r ∈ tl, r.rr_type = T_MX → ∃ p e, r.body = RRBody.mx p e :=
      fun r hr => hwf r (List.mem_cons_of_mem _ hr)
    obtain ⟨h1, h2⟩ := ih hwftl
    by_cases ht : rr.rr_type = T_MX
    · obtain ⟨p, e, hb⟩ := hwf rr (List.mem_cons_self rr tl) ht
      simp [mxSel, ht, hb, rrPref, List.filter_cons, h1, h2]
    · simp [mxSel, ht, List.filter_cons, h1, h2]

/-- Reduction of `dns_dispatch_mx` on a successfully submitted response
whose header and query decode. -/
theorem dns_dispatch_mx_decode (ar : AsrResult) (s : Session) (he : ar.h_errno = 0)
    (h : DnsHeader) (q : DnsQuery) (u1 u2 : Unpack)
    (hh : unpack_header (unpack_init ar.data) = (some h, u1))
    (hq : unpack_query u1 = (some q, u2)) :
    dns_dispatch_mx ar s =
      { msgs := [],
        spawned := if (mxWalk u2 h.ancount).isEmpty then [⟨s.name, (0 : Int)⟩]
          else mxWalk u2 h.ancount,
        freed := false,
        session := some { s with refcount := s.refcount +
          (if (mxWalk u2 h.ancount).isEmpty then [(⟨s.name, (0 : Int)⟩ : Lookup)]
            else mxWalk u2 h.ancount).length } } := by
  unfold dns_dispatch_mx
  rw [if_neg (by simp [he])]
  dsimp only
  rw [hh]
  dsimp only
  rw [hq]

/-- C8: for an MX completion whose payload fully decodes to an answer
section containing N records of type MX, `dns_dispatch_mx` spawns exactly N
host sub-lookups, in order, each carrying the corresponding record's
preference; when N = 0 it spawns exactly one sub-lookup on the session's
stored origin name with preference 0. -/
theorem c8_mx_fanout_counts (ar : AsrResult) (s : Session) (rrs : List DnsRR)
    (he : ar.h_errno = 0) (hd : decodeMxPayload ar.data = some rrs) :
    ((rrs.filter (fun rr => rr.rr_type = T_MX)).length = 0 →
      (dns_dispatch_mx ar s).spawned = [⟨s.name, 0⟩]) ∧
    (dns_dispatch_mx ar s).spawned.length =
      (if (rrs.filter (fun rr => rr.rr_type = T_MX)).length = 0 then 1
       else (rrs.filter (fun rr => rr.rr_type = T_MX)).length) ∧
    (0 < (rrs.filter (fun rr => rr.rr_type = T_MX)).length →
      (dns_dispatch_mx ar s).spawned.map Lookup.pref =
        (rrs.filter (fun rr => rr.rr_type = T_MX)).map rrPref) := by
  unfold decodeMxPayload at hd
  cases hh : unpack_header (unpack_init ar.data) with
  | mk oh u1 =>
    cases oh with
    | none =>
      rw [hh] at hd
      cases hd
    | some h =>
      rw [hh] at hd
      dsimp only at hd
      cases hq : unpack_query u1 with
      | mk oq u2 =>
        cases oq with
        | none =>
          rw [hq] at hd
          cases hd
        | some q =>
          rw [hq] at hd
          dsimp only at hd
          have hwalk := mxWalk_eq h.ancount u2 rrs hd
          obtain ⟨hpref, hlen⟩ := filterMap_mxSel_spec rrs (answers_wf h.ancount u2 rrs hd)
          rw [dns_dispatch_mx_decode ar s he h q u1 u2 hh hq]
          dsimp only
          rw [hwalk]
          by_cases hz : (rrs.filter (fun rr => rr.rr_type = T_MX)).length = 0
          · have hempty : (rrs.filterMap mxSel).isEmpty := by
              rw [List.isEmpty_iff_length_eq_zero, hlen]
              exact hz
            rw [if_pos hempty]
            simp [hz]
          · have hempty : ¬(rrs.filterMap mxSel).isEmpty := by
              rw [List.isEmpty_iff_length_eq_zero, hlen]
              exact hz
            rw [if_neg hempty]
            exact ⟨fun hc => absurd hc hz, by rw [if_neg hz, hlen], fun _ => hpref⟩

/-- A complete MX response: header (1 question, 1 answer), question for
name "a", one MX answer with preference 10 and exchange "mx1". -/
def mxPayload : List Nat :=
  [0, 0, 0, 0, 0, 1, 0, 1, 0, 0, 0, 0] ++ [1, 97, 0, 0, 15, 0, 1] ++
  [0, 0, 15, 0, 1, 0, 0, 0, 0, 0, 7, 0, 10, 3, 109, 120, 49, 0]

/-- C8 witness: the single-MX payload spawns exactly one lookup carrying
preference 10. -/
theorem c8_mx_fanout_counts_witness :
    (dns_dispatch_mx ⟨0, 0, mxPayload⟩ ⟨1, ReqType.mx, [100], 0, 0, 0⟩).spawned.map
        Lookup.pref = [(10 : Int)] ∧
    (dns_dispatch_mx ⟨0, 0, mxPayload⟩ ⟨1, ReqType.mx, [100], 0, 0, 0⟩).spawned.length = 1 := by
  have h := c8_mx_fanout_counts ⟨0, 0, mxPayload⟩ ⟨1, ReqType.mx, [100], 0, 0, 0⟩
    [⟨[0], 15, 1, 0, RRBody.mx 10 [3, 109, 120, 49, 0]⟩] rfl (by decide)
  refine ⟨?_, ?_⟩
  · have := h.2.2 (by decide)
    rw [this]
    decide
  · have := h.2.1
    rw [this]
    decide

end Dns
